import Mathlib

/-!
Verification of the ETL Deploy smoke runner (`src/main.py`).

The program loads a JSON settings file, validates required keys and the
shape of the conventional `repos` / `secrets` fields, and prints a
redacted summary.  We embed the JSON data model and the four functions
`load_settings`, `coalesce_required_keys`, `validate_settings` and
`summarize_settings` shallowly: Python dicts become ordered association
lists, `raise SystemExit(n)` after printing a message to stderr becomes
`Except.error (n, msg)`, and stdout becomes a list of lines.
-/

namespace EtlDeploy

/-- JSON values as produced by `json.load`.  Numbers are modelled as
integers (no claim depends on numeric formatting). -/
inductive JValue where
  | null
  | bool (b : Bool)
  | num (n : Int)
  | str (s : String)
  | arr (items : List JValue)
  | obj (fields : List (String × JValue))

/-- A configuration: a Python dict from string keys to JSON values,
modelled as an insertion-ordered association list. -/
abbrev Config := List (String × JValue)

/-- Python `d.get(k)` / `d[k]`: look up the first binding of `k`. -/
def dictGet : Config → String → Option JValue
  | [], _ => none
  | (k, v) :: rest, key => if k = key then some v else dictGet rest key

/-- Python `d.get(k, default)`. -/
def dictGetD (cfg : Config) (key : String) (dflt : JValue) : JValue :=
  (dictGet cfg key).getD dflt

/-- Python `k in d`. -/
def dictHas (cfg : Config) (key : String) : Bool :=
  (dictGet cfg key).isSome

/-- Python `isinstance(v, str)`. -/
def isStr : JValue → Bool
  | .str _ => true
  | _ => false

/-- Python `isinstance(v, list)`. -/
def isList : JValue → Bool
  | .arr _ => true
  | _ => false

/-- Python `isinstance(v, dict)`. -/
def isDict : JValue → Bool
  | .obj _ => true
  | _ => false

/-- The string payload of a `JValue.str` (only applied to strings). -/
def strOrEmpty : JValue → String
  | .str s => s
  | _ => ""

/-- DEFAULT_REQUIRED_KEYS from `src/main.py`. -/
def DEFAULT_REQUIRED_KEYS : List String :=
  ["project", "instance", "repos", "secrets"]

/-- The de-duplication loop of `coalesce_required_keys`: walk the list,
appending each key to `ordered` unless it is already in `seen`. -/
def dedupLoop (seen : List String) (ordered : List String) :
    List String → List String
  | [] => ordered
  | k :: rest =>
      if k ∈ seen then dedupLoop seen ordered rest
      else dedupLoop (k :: seen) (ordered ++ [k]) rest

/-- coalesce_required_keys from `src/main.py`: use `required_keys` if it
is a list of strings (de-duplicated preserving order), otherwise the
default tuple. -/
def coalesce_required_keys (cfg : Config) : List String :=
  match dictGet cfg "required_keys" with
  | some (.arr rk) =>
      if rk.all isStr then dedupLoop [] [] (rk.map strOrEmpty)
      else DEFAULT_REQUIRED_KEYS
  | _ => DEFAULT_REQUIRED_KEYS

/-- Stderr message for a missing-keys failure. -/
def missingKeysMsg (missing : List String) : String :=
  "[ERROR] Missing required keys in settings.json: " ++
    String.intercalate ", " missing

/-- Stderr message for a repo element that is not an object. -/
def repoObjMsg (i : Nat) : String :=
  "[ERROR] repos[" ++ toString i ++ "] must be an object."

/-- Stderr message for a missing / non-string / blank repo field. -/
def repoFieldMsg (i : Nat) (key : String) : String :=
  "[ERROR] repos[" ++ toString i ++ "]." ++ key ++
    " must be a non-empty string."

/-- Stderr message when `repos` is not a list. -/
def reposListMsg : String :=
  "[ERROR] \x27repos\x27 must be a list."

/-- Stderr message when `secrets` is not a dict. -/
def secretsDictMsg : String :=
  "[ERROR] \x27secrets\x27 must be an object (dict)."

/-- Python's `not s.strip()`: the string is empty or entirely
whitespace, so stripping leaves the empty (falsy) string. -/
def isBlank (s : String) : Bool :=
  s.data.all Char.isWhitespace

/-- The check `key not in r or not isinstance(r[key], str) or not
r[key].strip()` for one field of one repo element. -/
def checkRepoField (i : Nat) (r : List (String × JValue)) (key : String) :
    Except (Nat × String) Unit :=
  match dictGet r key with
  | some (.str s) =>
      if isBlank s then .error (3, repoFieldMsg i key) else .ok ()
  | _ => .error (3, repoFieldMsg i key)

/-- The `for i, r in enumerate(repos)` loop of `validate_settings`,
starting at index `i`. -/
def checkRepos (i : Nat) : List JValue → Except (Nat × String) Unit
  | [] => .ok ()
  | r :: rest =>
      match r with
      | .obj f =>
          match checkRepoField i f "name" with
          | .error e => .error e
          | .ok () =>
              match checkRepoField i f "url" with
              | .error e => .error e
              | .ok () => checkRepos (i + 1) rest
      | _ => .error (3, repoObjMsg i)

/-- The presence check of `validate_settings`: compute the missing
required keys and fail when there are any. -/
def presenceCheck (cfg : Config) : Except (Nat × String) Unit :=
  let required := coalesce_required_keys cfg
  let missing := required.filter (fun k => !dictHas cfg k)
  if missing.isEmpty then .ok ()
  else .error (3, missingKeysMsg missing)

/-- The `repos` shape check of `validate_settings` (only applied when
the key is present). -/
def reposCheckPart (cfg : Config) : Except (Nat × String) Unit :=
  match dictGet cfg "repos" with
  | some (.arr repos) => checkRepos 0 repos
  | some _ => .error (3, reposListMsg)
  | none => .ok ()

/-- The `secrets` shape check of `validate_settings`. -/
def secretsCheckPart (cfg : Config) : Except (Nat × String) Unit :=
  match dictGet cfg "secrets" with
  | some v => if isDict v then .ok () else .error (3, secretsDictMsg)
  | none => .ok ()

/-- The shape-check phase of `validate_settings` (repos first, then
secrets, stopping at the first violation). -/
def shapeCheck (cfg : Config) : Except (Nat × String) Unit :=
  match reposCheckPart cfg with
  | .error e => .error e
  | .ok () => secretsCheckPart cfg

/-- validate_settings from `src/main.py`: presence check, then shape
checks; `raise SystemExit(3)` becomes `Except.error (3, msg)`. -/
def validate_settings (cfg : Config) : Except (Nat × String) Unit :=
  match presenceCheck cfg with
  | .error e => .error e
  | .ok () => shapeCheck cfg

mutual

/-- Python `repr` of a JSON-loaded value (scalar forms as CPython
prints them; string escaping inside repr is not modelled). -/
def pyRepr : JValue → String
  | .null => "None"
  | .bool true => "True"
  | .bool false => "False"
  | .num n => toString n
  | .str s => "\x27" ++ s ++ "\x27"
  | .arr items => "[" ++ String.intercalate ", " (pyReprList items) ++ "]"
  | .obj fields =>
      "\x7b" ++ String.intercalate ", " (pyReprFields fields) ++ "\x7d"

/-- Helper for `pyRepr` on list elements. -/
def pyReprList : List JValue → List String
  | [] => []
  | v :: rest => pyRepr v :: pyReprList rest

/-- Helper for `pyRepr` on dict entries. -/
def pyReprFields : List (String × JValue) → List String
  | [] => []
  | (k, v) :: rest =>
      ("\x27" ++ k ++ "\x27: " ++ pyRepr v) :: pyReprFields rest

end

/-- Python `str(v)` for a JSON-loaded value: identity on strings,
`repr` otherwise. -/
def pyStr : JValue → String
  | .str s => s
  | v => pyRepr v

/-- Insert into an already-sorted list of strings (code-point order,
as Python compares strings). -/
def insertSorted (x : String) : List String → List String
  | [] => [x]
  | y :: rest => if x ≤ y then x :: y :: rest else y :: insertSorted x rest

/-- Python `sorted` on a list of strings (insertion sort; the result is
the unique sorted arrangement of the multiset, so it agrees with any
correct sort). -/
def sortedStrings (l : List String) : List String :=
  l.foldr insertSorted []

/-- The conventional top-level keys excluded from the `Other keys:`
line. -/
def conventionalKeys : List String :=
  ["project", "instance", "repos", "secrets", "required_keys"]

/-- The repo-listing loop of `summarize_settings`: one line per element
that is a dict, other elements are skipped. -/
def repoLines : List JValue → List String
  | [] => []
  | r :: rest =>
      match r with
      | .obj f =>
          ("  - " ++ pyStr (dictGetD f "name" (.str "<noname>")) ++
            " :: " ++ pyStr (dictGetD f "url" (.str "<nourl>")) ++
            " @ " ++ pyStr (dictGetD f "branch" (.str "main"))) ::
            repoLines rest
      | _ => repoLines rest

/-- The `Repos:` block of `summarize_settings`. -/
def reposSection (cfg : Config) : List String :=
  match dictGetD cfg "repos" (.arr []) with
  | .arr repos => ("Repos:    " ++ toString repos.length) :: repoLines repos
  | _ => ["Repos:    <invalid type>"]

/-- The `Secrets:` block of `summarize_settings`; `map(str, keys)` is
the identity on the (string) keys. -/
def secretsSection (cfg : Config) : List String :=
  match dictGetD cfg "secrets" (.obj []) with
  | .obj secrets =>
      ("Secrets:  " ++ toString secrets.length ++ " keys") ::
        (if secrets.isEmpty then []
         else ["  keys: " ++
           String.intercalate ", " (sortedStrings (secrets.map Prod.fst))])
  | _ => ["Secrets:  <invalid type>"]

/-- The `Other keys:` block of `summarize_settings`. -/
def otherKeysSection (cfg : Config) : List String :=
  let extra := sortedStrings
    ((cfg.map Prod.fst).filter (fun k => !conventionalKeys.contains k))
  if extra.isEmpty then []
  else ["Other keys: " ++ String.intercalate ", " extra]

/-- summarize_settings from `src/main.py`: the list of stdout lines. -/
def summarize_settings (cfg : Config) : List String :=
  ["=== ETL Deploy :: Settings Summary ===",
   "Project:  " ++ pyStr (dictGetD cfg "project" (.str "<unknown>")),
   "Instance: " ++ pyStr (dictGetD cfg "instance" (.str "<unknown>"))] ++
  reposSection cfg ++
  secretsSection cfg ++
  otherKeysSection cfg ++
  ["=== End Summary ==="]

/-- Outcome of the file-system and JSON-parsing side effects of
`load_settings`, made explicit: the path is absent, reading raised an
OS error, the content failed to parse, or parsing produced a root
value. -/
inductive LoadOutcome where
  | notFound
  | readError (detail : String)
  | parseError (detail : String)
  | parsed (root : JValue)

/-- load_settings from `src/main.py`, over an explicit I/O outcome;
`raise SystemExit(2)` becomes `Except.error (2, msg)`. -/
def load_settings (path : String) : LoadOutcome → Except (Nat × String) Config
  | .notFound => .error (2, "[ERROR] Settings file not found: " ++ path)
  | .parseError e =>
      .error (2, "[ERROR] Invalid JSON in " ++ path ++ ": " ++ e)
  | .readError e => .error (2, "[ERROR] Cannot read " ++ path ++ ": " ++ e)
  | .parsed v =>
      match v with
      | .obj fields => .ok fields
      | _ => .error (2, "[ERROR] Root of " ++ path ++
          " must be a JSON object (dict).")

/-! Spec-side definitions: reformulations taken from the wording of the
specification, to be compared with the translated code above. -/

/-- De-duplication keeping first-occurrence order, as the spec words it
(independent of the `seen`-set loop in the code). -/
def dedupFirst : List String → List String
  | [] => []
  | k :: rest => k :: dedupFirst (rest.filter (fun x => x ≠ k))
termination_by l => l.length
decreasing_by
  simp
  exact Nat.lt_succ_of_le (List.length_filter_le _ _)

/-- Spec-side check for one repo field: present, a string, and non-empty
after stripping whitespace. -/
def fieldOk (f : List (String × JValue)) (key : String) : Bool :=
  match dictGet f key with
  | some (.str s) => !isBlank s
  | _ => false

/-- Spec-side check for one repo element: an object whose `name` and
`url` fields pass `fieldOk`. -/
def repoElemOk (r : JValue) : Bool :=
  match r with
  | .obj f => fieldOk f "name" && fieldOk f "url"
  | _ => false

/-- Spec-side check for the `repos` value: a list all of whose elements
pass `repoElemOk`. -/
def reposOkB (v : JValue) : Bool :=
  match v with
  | .arr l => l.all repoElemOk
  | _ => false

/-- Spec-side check for the whole `repos` shape constraint (vacuous when
the key is absent). -/
def reposPartOk (cfg : Config) : Bool :=
  match dictGet cfg "repos" with
  | some v => reposOkB v
  | none => true

/-- Spec-side check for the `secrets` shape constraint (vacuous when the
key is absent). -/
def secretsPartOk (cfg : Config) : Bool :=
  match dictGet cfg "secrets" with
  | some v => isDict v
  | none => true

/-- Replace the value bound to `key` (first occurrence) by `nv`, leaving
every other binding unchanged. -/
def updateKey : Config → String → JValue → Config
  | [], _, _ => []
  | (k, v) :: rest, key, nv =>
      if k = key then (k, nv) :: rest else (k, v) :: updateKey rest key nv

/-- The message the spec predicts for the first shape violation in
`repos` at index `i`: a non-object element is reported as such, and an
object is reported on `name` before `url`. -/
def firstViolationMsg (i : Nat) (r : JValue) : String :=
  match r with
  | .obj f => if fieldOk f "name" then repoFieldMsg i "url" else repoFieldMsg i "name"
  | _ => repoObjMsg i

/-- A string with no newline, i.e. a single-line diagnostic. -/
def singleLine (s : String) : Bool :=
  s.data.all (fun c => c ≠ '\n')

/-- Whether the parser / OS error details carried by a load outcome are
themselves single-line. -/
def outcomeDetailSingleLine : LoadOutcome → Bool
  | .parseError e => singleLine e
  | .readError e => singleLine e
  | _ => true

/-- Spec-side summary line for one repo element: objects give one line,
other elements give none. -/
def specRepoLine : JValue → Option String
  | .obj f =>
      some ("  - " ++ pyStr (dictGetD f "name" (.str "<noname>")) ++
        " :: " ++ pyStr (dictGetD f "url" (.str "<nourl>")) ++
        " @ " ++ pyStr (dictGetD f "branch" (.str "main")))
  | _ => none

/-- Spec-side summary, assembled from the wording of §4.3: banner,
project / instance with `<unknown>` placeholders, repos count with one
line per object element (or `<invalid type>` for a non-list), secrets
count with sorted key names (or `<invalid type>` for a non-mapping),
optional other-keys line, closing banner. -/
def summarySpec (cfg : Config) : List String :=
  ["=== ETL Deploy :: Settings Summary ===",
   "Project:  " ++ (match dictGet cfg "project" with
     | none => "<unknown>"
     | some v => pyStr v),
   "Instance: " ++ (match dictGet cfg "instance" with
     | none => "<unknown>"
     | some v => pyStr v)] ++
  (match dictGet cfg "repos" with
   | none => ["Repos:    0"]
   | some (.arr l) =>
       ("Repos:    " ++ toString l.length) :: l.filterMap specRepoLine
   | some _ => ["Repos:    <invalid type>"]) ++
  (match dictGet cfg "secrets" with
   | none => ["Secrets:  0 keys"]
   | some (.obj s) =>
       ("Secrets:  " ++ toString s.length ++ " keys") ::
         (if s.length = 0 then []
          else ["  keys: " ++
            String.intercalate ", " (sortedStrings (s.map Prod.fst))])
   | some _ => ["Secrets:  <invalid type>"]) ++
  (let extra := sortedStrings ((cfg.map Prod.fst).filter (fun k =>
      !(k == "project" || k == "instance" || k == "repos" ||
        k == "secrets" || k == "required_keys")))
   if extra = [] then [] else ["Other keys: " ++ String.intercalate ", " extra]) ++
  ["=== End Summary ==="]

/-- Python `sep.join(items)`: fails with a TypeError unless every item
is a string. -/
def pyJoinChecked (sep : String) (items : List JValue) : Except String String :=
  if items.all isStr then .ok (String.intercalate sep (items.map strOrEmpty))
  else .error "TypeError: sequence item: expected str instance"

/-- The secrets block of the summarizer with the one Python operation
that could raise — `", ".join(sorted(map(str, secrets.keys())))` —
modelled as fallible. -/
def secretsSectionChecked (cfg : Config) : Except String (List String) :=
  match dictGetD cfg "secrets" (.obj []) with
  | .obj secrets =>
      if secrets.isEmpty then
        .ok ["Secrets:  " ++ toString secrets.length ++ " keys"]
      else
        match pyJoinChecked ", "
            ((sortedStrings (secrets.map (fun kv => pyStr (.str kv.1)))).map
              .str) with
        | .error e => .error e
        | .ok ks =>
            .ok ["Secrets:  " ++ toString secrets.length ++ " keys",
              "  keys: " ++ ks]
  | _ => .ok ["Secrets:  <invalid type>"]

/-- summarize_settings with its fallible step made explicit; a `.error`
result corresponds to the summarizer raising. -/
def summarizeChecked (cfg : Config) : Except String (List String) :=
  match secretsSectionChecked cfg with
  | .error e => .error e
  | .ok secretsPart =>
      .ok (["=== ETL Deploy :: Settings Summary ===",
        "Project:  " ++ pyStr (dictGetD cfg "project" (.str "<unknown>")),
        "Instance: " ++ pyStr (dictGetD cfg "instance" (.str "<unknown>"))] ++
        reposSection cfg ++ secretsPart ++ otherKeysSection cfg ++
        ["=== End Summary ==="])

/-! State-threaded variants: the three operations re-read the
configuration through `get` at each access and never write it, so
running them leaves the state untouched. -/

/-- coalesce_required_keys as a state computation over the
configuration. -/
def coalesce_required_keys_st : StateM Config (List String) := do
  let cfg ← get
  pure (coalesce_required_keys cfg)

/-- validate_settings as a state computation over the configuration. -/
def validate_settings_st : StateM Config (Except (Nat × String) Unit) := do
  let required ← coalesce_required_keys_st
  let cfg1 ← get
  let missing := required.filter (fun k => !dictHas cfg1 k)
  if missing.isEmpty then do
    let cfg2 ← get
    match reposCheckPart cfg2 with
    | .error e => pure (.error e)
    | .ok () => do
        let cfg3 ← get
        pure (secretsCheckPart cfg3)
  else pure (.error (3, missingKeysMsg missing))

/-- summarize_settings as a state computation over the configuration. -/
def summarize_settings_st : StateM Config (List String) := do
  let cfg1 ← get
  let headerLines :=
    ["=== ETL Deploy :: Settings Summary ===",
     "Project:  " ++ pyStr (dictGetD cfg1 "project" (.str "<unknown>")),
     "Instance: " ++ pyStr (dictGetD cfg1 "instance" (.str "<unknown>"))]
  let cfg2 ← get
  let reposPart := reposSection cfg2
  let cfg3 ← get
  let secretsPart := secretsSection cfg3
  let cfg4 ← get
  let otherPart := otherKeysSection cfg4
  pure (headerLines ++ reposPart ++ secretsPart ++ otherPart ++
    ["=== End Summary ==="])

/-! Lemmas about de-duplication. -/

lemma dedupFirst_nil : dedupFirst [] = [] := by
  rw [dedupFirst]

lemma dedupFirst_cons (k : String) (rest : List String) :
    dedupFirst (k :: rest) = k :: dedupFirst (rest.filter (fun x => x ≠ k)) := by
  rw [dedupFirst]

/-- The `seen`-set loop of the code computes the spec's first-occurrence
de-duplication of the yet-unseen elements, appended to the accumulator. -/
lemma dedupLoop_eq : ∀ (l seen ordered : List String),
    dedupLoop seen ordered l =
      ordered ++ dedupFirst (l.filter (fun x => !decide (x ∈ seen)))
  | [], seen, ordered => by simp [dedupLoop, dedupFirst_nil]
  | k :: rest, seen, ordered => by
      by_cases h : k ∈ seen
      · rw [dedupLoop, if_pos h, dedupLoop_eq rest seen ordered]
        congr 2
        simp [List.filter_cons, h]
      · rw [dedupLoop, if_neg h, dedupLoop_eq rest (k :: seen) (ordered ++ [k])]
        have hfc : List.filter (fun x => !decide (x ∈ seen)) (k :: rest)
            = k :: List.filter (fun x => !decide (x ∈ seen)) rest := by
          simp [List.filter_cons, h]
        have hff : List.filter (fun x : String => x ≠ k)
              (List.filter (fun x => !decide (x ∈ seen)) rest)
            = List.filter (fun x => !decide (x ∈ k :: seen)) rest := by
          rw [List.filter_filter]
          apply List.filter_congr
          intro x _
          by_cases h1 : x = k <;> simp [h1, h]
        rw [hfc, dedupFirst_cons, hff, List.append_assoc, List.singleton_append]

/-- coalesce_required_keys on a list of strings is the spec's
first-occurrence de-duplication. -/
lemma coalesce_eq_dedupFirst (cfg : Config) (rk : List JValue)
    (h1 : dictGet cfg "required_keys" = some (.arr rk))
    (h2 : rk.all isStr = true) :
    coalesce_required_keys cfg = dedupFirst (rk.map strOrEmpty) := by
  rw [coalesce_required_keys, h1]
  simp only [h2, if_true]
  rw [dedupLoop_eq]
  simp

lemma mem_dedupFirst : ∀ (l : List String) (x : String),
    x ∈ dedupFirst l ↔ x ∈ l := by
  intro l
  induction l using dedupFirst.induct with
  | case1 => simp [dedupFirst_nil]
  | case2 k rest ih =>
      intro x
      rw [dedupFirst_cons]
      simp only [List.mem_cons, ih, List.mem_filter]
      by_cases h : x = k <;> simp [h]

lemma nodup_dedupFirst : ∀ l : List String, (dedupFirst l).Nodup := by
  intro l
  induction l using dedupFirst.induct with
  | case1 => simp [dedupFirst_nil]
  | case2 k rest ih =>
      rw [dedupFirst_cons]
      refine List.nodup_cons.mpr ⟨?_, ih⟩
      intro hmem
      have := (mem_dedupFirst _ _).mp hmem
      simp [List.mem_filter] at this

lemma dedupFirst_of_nodup : ∀ l : List String, l.Nodup → dedupFirst l = l := by
  intro l
  induction l using dedupFirst.induct with
  | case1 => exact fun _ => dedupFirst_nil
  | case2 k rest ih =>
      intro hnd
      rw [dedupFirst_cons]
      rcases List.nodup_cons.mp hnd with ⟨hk, hrest⟩
      have hfilt : rest.filter (fun x => x ≠ k) = rest := by
        apply List.filter_eq_self.mpr
        intro a ha
        simp
        exact fun he => hk (he ▸ ha)
      rw [hfilt] at ih ⊢
      rw [ih hrest]

lemma dedupFirst_idem (l : List String) :
    dedupFirst (dedupFirst l) = dedupFirst l :=
  dedupFirst_of_nodup _ (nodup_dedupFirst l)

/-- C2: the effective required-key sequence is the `required_keys` value
de-duplicated in first-occurrence order when that value is a list of
strings, and the static default sequence `project`, `instance`, `repos`,
`secrets` when the field is absent, not a list, or a list containing a
non-string. -/
theorem claim_c2 : ∀ cfg : Config,
    (∀ rk, dictGet cfg "required_keys" = some (.arr rk) → rk.all isStr = true →
      coalesce_required_keys cfg = dedupFirst (rk.map strOrEmpty))
    ∧ (dictGet cfg "required_keys" = none →
      coalesce_required_keys cfg = ["project", "instance", "repos", "secrets"])
    ∧ (∀ v, dictGet cfg "required_keys" = some v → isList v = false →
      coalesce_required_keys cfg = ["project", "instance", "repos", "secrets"])
    ∧ (∀ rk, dictGet cfg "required_keys" = some (.arr rk) → rk.all isStr = false →
      coalesce_required_keys cfg = ["project", "instance", "repos", "secrets"]) := by
  intro cfg
  refine ⟨fun rk h1 h2 => coalesce_eq_dedupFirst cfg rk h1 h2, ?_, ?_, ?_⟩
  · intro h
    rw [coalesce_required_keys, h]
    rfl
  · intro v h hv
    rw [coalesce_required_keys, h]
    cases v <;> simp_all [isList, DEFAULT_REQUIRED_KEYS]
  · intro rk h1 h2
    rw [coalesce_required_keys, h1]
    simp [h2, DEFAULT_REQUIRED_KEYS]

/-- Witness for C2 at concrete inputs: a duplicated string list is
de-duplicated in first-occurrence order, and a list containing a
non-string falls back to the defaults. -/
theorem claim_c2_witness :
    coalesce_required_keys [("required_keys", .arr [.str "b", .str "a", .str "b"])] =
      ["b", "a"]
    ∧ coalesce_required_keys [("required_keys", .arr [.str "b", .num 1])] =
      ["project", "instance", "repos", "secrets"] := by
  constructor
  · have h := (claim_c2 [("required_keys", .arr [.str "b", .str "a", .str "b"])]).1
      [.str "b", .str "a", .str "b"] rfl rfl
    rw [h]
    simp [dedupFirst_cons, dedupFirst_nil, strOrEmpty]
  · exact (claim_c2 [("required_keys", .arr [.str "b", .num 1])]).2.2.2
      [.str "b", .num 1] rfl rfl

/-- C10: an empty `required_keys` list yields an empty effective
required-key sequence (the defaults are not used), so the presence check
passes and validation reduces to the shape checks. -/
theorem claim_c10 : ∀ cfg : Config,
    dictGet cfg "required_keys" = some (.arr []) →
    coalesce_required_keys cfg = []
    ∧ presenceCheck cfg = .ok ()
    ∧ validate_settings cfg = shapeCheck cfg := by
  intro cfg h
  have hc : coalesce_required_keys cfg = [] := by
    rw [coalesce_required_keys, h]
    simp [dedupLoop]
  have hp : presenceCheck cfg = .ok () := by
    rw [presenceCheck, hc]
    rfl
  exact ⟨hc, hp, by rw [validate_settings, hp]⟩

/-- Witness for C10: a configuration whose only key is an empty
`required_keys` passes the presence check (and full validation). -/
theorem claim_c10_witness :
    coalesce_required_keys [("required_keys", .arr [])] = []
    ∧ presenceCheck [("required_keys", .arr [])] = .ok ()
    ∧ validate_settings [("required_keys", .arr [])] =
        shapeCheck [("required_keys", .arr [])] :=
  claim_c10 [("required_keys", .arr [])] rfl

/-! Lemmas about validation. -/

lemma checkRepoField_ok_iff (i : Nat) (f : List (String × JValue)) (key : String) :
    checkRepoField i f key = .ok () ↔ fieldOk f key = true := by
  rw [checkRepoField, fieldOk]
  cases hv : dictGet f key with
  | none => simp
  | some v =>
      cases v <;> simp

lemma checkRepoField_of_ok (i : Nat) (f : List (String × JValue)) (key : String)
    (h : fieldOk f key = true) : checkRepoField i f key = .ok () :=
  (checkRepoField_ok_iff i f key).mpr h

lemma checkRepoField_err (i : Nat) (f : List (String × JValue)) (key : String)
    (h : fieldOk f key = false) :
    checkRepoField i f key = .error (3, repoFieldMsg i key) := by
  rw [checkRepoField, fieldOk] at *
  cases hv : dictGet f key with
  | none => simp
  | some v =>
      rw [hv] at h
      cases v <;> simp_all

lemma repoElemOk_obj (f : List (String × JValue))
    (h : repoElemOk (.obj f) = true) :
    fieldOk f "name" = true ∧ fieldOk f "url" = true := by
  simpa [repoElemOk, Bool.and_eq_true] using h

lemma checkRepos_ok_iff : ∀ (l : List JValue) (i : Nat),
    checkRepos i l = .ok () ↔ l.all repoElemOk = true
  | [], i => by simp [checkRepos]
  | r :: rest, i => by
      cases r with
      | obj f =>
          simp only [checkRepos, List.all_cons, Bool.and_eq_true]
          cases hn : checkRepoField i f "name" with
          | error e =>
              have : ¬ fieldOk f "name" = true := by
                intro hc
                rw [checkRepoField_of_ok i f "name" hc] at hn
                exact Except.noConfusion hn
              simp [repoElemOk, this]
          | ok u =>
              cases u
              have hnok : fieldOk f "name" = true :=
                (checkRepoField_ok_iff i f "name").mp hn
              cases hu : checkRepoField i f "url" with
              | error e =>
                  have : ¬ fieldOk f "url" = true := by
                    intro hc
                    rw [checkRepoField_of_ok i f "url" hc] at hu
                    exact Except.noConfusion hu
                  simp [repoElemOk, this, hnok]
              | ok u =>
                  cases u
                  have huok : fieldOk f "url" = true :=
                    (checkRepoField_ok_iff i f "url").mp hu
                  simp [repoElemOk, hnok, huok, checkRepos_ok_iff rest (i + 1)]
      | null => simp [checkRepos, repoElemOk]
      | bool b => simp [checkRepos, repoElemOk]
      | num n => simp [checkRepos, repoElemOk]
      | str s => simp [checkRepos, repoElemOk]
      | arr a => simp [checkRepos, repoElemOk]

lemma checkRepos_err_code : ∀ (l : List JValue) (i : Nat) (e : Nat × String),
    checkRepos i l = .error e → e.1 = 3
  | [], i, e => by simp [checkRepos]
  | r :: rest, i, e => by
      cases r with
      | obj f =>
          simp only [checkRepos]
          cases hn : checkRepoField i f "name" with
          | error e1 =>
              intro h
              have : e1 = (3, repoFieldMsg i "name") := by
                by_cases hc : fieldOk f "name" = true
                · rw [checkRepoField_of_ok i f "name" hc] at hn
                  exact Except.noConfusion hn
                · rw [checkRepoField_err i f "name" (Bool.eq_false_iff.mpr hc)] at hn
                  exact (Except.error.inj hn).symm
              cases h
              rw [this]
          | ok u =>
              cases u
              cases hu : checkRepoField i f "url" with
              | error e1 =>
                  intro h
                  have : e1 = (3, repoFieldMsg i "url") := by
                    by_cases hc : fieldOk f "url" = true
                    · rw [checkRepoField_of_ok i f "url" hc] at hu
                      exact Except.noConfusion hu
                    · rw [checkRepoField_err i f "url" (Bool.eq_false_iff.mpr hc)] at hu
                      exact (Except.error.inj hu).symm
                  cases h
                  rw [this]
              | ok u =>
                  cases u
                  exact checkRepos_err_code rest (i + 1) e
      | null => intro h; cases h; rfl
      | bool b => intro h; cases h; rfl
      | num n => intro h; cases h; rfl
      | str s => intro h; cases h; rfl
      | arr a => intro h; cases h; rfl

/-- The repo loop reports the lowest bad index, and within it `name`
before `url`, with the message `firstViolationMsg` predicts. -/
lemma checkRepos_first_bad : ∀ (l : List JValue) (start i : Nat)
    (hi : i < l.length),
    (∀ j (hj : j < l.length), j < i → repoElemOk (l.get ⟨j, hj⟩) = true) →
    repoElemOk (l.get ⟨i, hi⟩) = false →
    checkRepos start l = .error (3, firstViolationMsg (start + i) (l.get ⟨i, hi⟩))
  | [], start, i, hi => by simp at hi
  | r :: rest, start, 0, hi => by
      intro _ hbad
      simp only [List.get] at hbad ⊢
      cases r with
      | obj f =>
          by_cases hn : fieldOk f "name" = true
          · have hu : fieldOk f "url" = false := by
              simp [repoElemOk, hn] at hbad
              exact hbad
            simp [checkRepos, checkRepoField_of_ok start f "name" hn,
              checkRepoField_err start f "url" hu, firstViolationMsg, hn]
          · have hn' : fieldOk f "name" = false := Bool.eq_false_iff.mpr hn
            simp [checkRepos, checkRepoField_err start f "name" hn',
              firstViolationMsg, hn']
      | null => simp [checkRepos, firstViolationMsg]
      | bool b => simp [checkRepos, firstViolationMsg]
      | num n => simp [checkRepos, firstViolationMsg]
      | str s => simp [checkRepos, firstViolationMsg]
      | arr a => simp [checkRepos, firstViolationMsg]
  | r :: rest, start, i + 1, hi => by
      intro hok hbad
      have h0 : repoElemOk r = true := hok 0 (by simp) (Nat.succ_pos i)
      cases r with
      | obj f =>
          obtain ⟨hn, hu⟩ := repoElemOk_obj f h0
          have hrec := checkRepos_first_bad rest (start + 1) i
            (by simpa using hi)
            (fun j hj hlt => by
              have := hok (j + 1) (by simpa using Nat.succ_lt_succ hj)
                (Nat.succ_lt_succ hlt)
              simpa using this)
            (by simpa using hbad)
          have harith : start + 1 + i = start + (i + 1) := by omega
          rw [harith] at hrec
          simp only [checkRepos, checkRepoField_of_ok start f "name" hn,
            checkRepoField_of_ok start f "url" hu]
          simpa using hrec
      | null => simp [repoElemOk] at h0
      | bool b => simp [repoElemOk] at h0
      | num n => simp [repoElemOk] at h0
      | str s => simp [repoElemOk] at h0
      | arr a => simp [repoElemOk] at h0

lemma presenceCheck_ok_iff (cfg : Config) :
    presenceCheck cfg = .ok () ↔
      (coalesce_required_keys cfg).all (dictHas cfg) = true := by
  rw [presenceCheck]
  split
  · rename_i hempty
    simp only [List.isEmpty_iff, List.filter_eq_nil_iff] at hempty
    simp only [List.all_eq_true]
    constructor
    · intro _ k hk
      have := hempty k hk
      simpa using this
    · intro _
      trivial
  · rename_i hne
    simp only [List.isEmpty_iff, List.filter_eq_nil_iff] at hne
    push_neg at hne
    obtain ⟨k, hk, hbad⟩ := hne
    simp only [List.all_eq_true]
    constructor
    · intro h
      exact Except.noConfusion h
    · intro h
      have := h k hk
      simp [this] at hbad

lemma presenceCheck_err (cfg : Config)
    (h : (coalesce_required_keys cfg).filter (fun k => !dictHas cfg k) ≠ []) :
    presenceCheck cfg = .error (3, missingKeysMsg
      ((coalesce_required_keys cfg).filter (fun k => !dictHas cfg k))) := by
  rw [presenceCheck]
  split
  · rename_i hempty
    rw [List.isEmpty_iff] at hempty
    exact absurd hempty h
  · rfl

lemma reposCheckPart_ok_iff (cfg : Config) :
    reposCheckPart cfg = .ok () ↔ reposPartOk cfg = true := by
  rw [reposCheckPart, reposPartOk]
  cases hv : dictGet cfg "repos" with
  | none => simp
  | some v =>
      cases v with
      | arr l => exact checkRepos_ok_iff l 0
      | null => simp [reposOkB]
      | bool b => simp [reposOkB]
      | num n => simp [reposOkB]
      | str s => simp [reposOkB]
      | obj f => simp [reposOkB]

lemma secretsCheckPart_ok_iff (cfg : Config) :
    secretsCheckPart cfg = .ok () ↔ secretsPartOk cfg = true := by
  rw [secretsCheckPart, secretsPartOk]
  cases hv : dictGet cfg "secrets" with
  | none => simp
  | some v => cases v <;> simp [isDict]

lemma shapeCheck_ok_iff (cfg : Config) :
    shapeCheck cfg = .ok () ↔
      reposPartOk cfg = true ∧ secretsPartOk cfg = true := by
  rw [shapeCheck]
  cases hr : reposCheckPart cfg with
  | error e =>
      have : ¬ reposPartOk cfg = true := by
        intro hc
        rw [(reposCheckPart_ok_iff cfg).mpr hc] at hr
        exact Except.noConfusion hr
      simp [this]
  | ok u =>
      cases u
      have : reposPartOk cfg = true := (reposCheckPart_ok_iff cfg).mp hr
      simp [this, secretsCheckPart_ok_iff]

lemma shapeCheck_err_code (cfg : Config) (e : Nat × String)
    (h : shapeCheck cfg = .error e) : e.1 = 3 := by
  rw [shapeCheck] at h
  cases hr : reposCheckPart cfg with
  | error e1 =>
      rw [hr] at h
      cases h
      rw [reposCheckPart] at hr
      cases hv : dictGet cfg "repos" with
      | none => rw [hv] at hr; exact Except.noConfusion hr
      | some v =>
          rw [hv] at hr
          cases v <;> try (cases hr; rfl)
          exact checkRepos_err_code _ 0 _ hr
  | ok u =>
      cases u
      rw [hr] at h
      rw [secretsCheckPart] at h
      cases hv : dictGet cfg "secrets" with
      | none => rw [hv] at h; exact Except.noConfusion h
      | some v =>
          rw [hv] at h
          cases v with
          | obj f => exact Except.noConfusion h
          | null => cases h; rfl
          | bool b => cases h; rfl
          | num n => cases h; rfl
          | str s => cases h; rfl
          | arr a => cases h; rfl

lemma validate_ok_iff (cfg : Config) :
    validate_settings cfg = .ok () ↔
      ((coalesce_required_keys cfg).all (dictHas cfg) = true
        ∧ reposPartOk cfg = true ∧ secretsPartOk cfg = true) := by
  rw [validate_settings]
  cases hp : presenceCheck cfg with
  | error e =>
      have : ¬ (coalesce_required_keys cfg).all (dictHas cfg) = true := by
        intro hc
        rw [(presenceCheck_ok_iff cfg).mpr hc] at hp
        exact Except.noConfusion hp
      simp [this]
  | ok u =>
      cases u
      have : (coalesce_required_keys cfg).all (dictHas cfg) = true :=
        (presenceCheck_ok_iff cfg).mp hp
      simp [this, shapeCheck_ok_iff]

lemma validate_err_code (cfg : Config) (e : Nat × String)
    (h : validate_settings cfg = .error e) : e.1 = 3 := by
  rw [validate_settings] at h
  cases hp : presenceCheck cfg with
  | error e1 =>
      rw [hp] at h
      cases h
      rw [presenceCheck] at hp
      split at hp
      · exact Except.noConfusion hp
      · cases hp; rfl
  | ok u =>
      cases u
      rw [hp] at h
      exact shapeCheck_err_code cfg e h

lemma validate_of_presence_ok (cfg : Config)
    (h : presenceCheck cfg = .ok ()) :
    validate_settings cfg = shapeCheck cfg := by
  rw [validate_settings, h]

/-- C3: validation fails, always with exit code 3, exactly when some
effective required key is absent or a shape check fails; a missing-keys
failure reports the absent required keys comma-joined in effective-key
order; and a `required_keys` override replaces the defaults, so a
configuration declaring `required_keys: ["instance"]` and containing
only `instance` (besides the override itself) validates successfully. -/
theorem claim_c3 : ∀ cfg : Config,
    ((∃ e, validate_settings cfg = .error e) ↔
      ((∃ k, k ∈ coalesce_required_keys cfg ∧ dictHas cfg k = false)
        ∨ reposPartOk cfg = false ∨ secretsPartOk cfg = false))
    ∧ (∀ e, validate_settings cfg = .error e → e.1 = 3)
    ∧ ((coalesce_required_keys cfg).filter (fun k => !dictHas cfg k) ≠ [] →
        validate_settings cfg = .error (3,
          "[ERROR] Missing required keys in settings.json: " ++
            String.intercalate ", "
              ((coalesce_required_keys cfg).filter (fun k => !dictHas cfg k))))
    ∧ validate_settings [("required_keys", .arr [.str "instance"]),
        ("instance", .str "x")] = .ok () := by
  intro cfg
  refine ⟨?_, fun e he => validate_err_code cfg e he, ?_, by rfl⟩
  · constructor
    · rintro ⟨e, he⟩
      by_contra hcon
      push_neg at hcon
      obtain ⟨h1, h2, h3⟩ := hcon
      have hall : (coalesce_required_keys cfg).all (dictHas cfg) = true := by
        rw [List.all_eq_true]
        intro k hk
        cases hdk : dictHas cfg k with
        | true => rfl
        | false => exact absurd hdk (h1 k hk)
      have hok : validate_settings cfg = .ok () :=
        (validate_ok_iff cfg).mpr ⟨hall,
          Bool.ne_false_iff.mp h2, Bool.ne_false_iff.mp h3⟩
      rw [hok] at he
      exact Except.noConfusion he
    · intro hfail
      cases hv : validate_settings cfg with
      | error e => exact ⟨e, rfl⟩
      | ok u =>
          cases u
          obtain ⟨hall, hrep, hsec⟩ := (validate_ok_iff cfg).mp hv
          rcases hfail with ⟨k, hk, hbad⟩ | hrep' | hsec'
          · have := List.all_eq_true.mp hall k hk
            rw [this] at hbad
            exact Bool.noConfusion hbad
          · rw [hrep] at hrep'
            exact Bool.noConfusion hrep'
          · rw [hsec] at hsec'
            exact Bool.noConfusion hsec'
  · intro hne
    have hp := presenceCheck_err cfg hne
    rw [validate_settings, hp]
    rfl

/-- Witness for C3 at concrete inputs: the empty configuration fails
with exit code 3 naming all four default required keys in order, and
the claim's general error characterization applies to it. -/
theorem claim_c3_witness :
    validate_settings [] = .error (3,
      "[ERROR] Missing required keys in settings.json: project, instance, repos, secrets")
    ∧ (∃ e, validate_settings ([] : Config) = .error e) := by
  have h := claim_c3 []
  refine ⟨?_, ?_⟩
  · have hmsg := h.2.2.1 (by decide)
    exact hmsg
  · exact h.1.mpr (Or.inl ⟨"project", by decide, by decide⟩)

/-- C4: for a configuration that passes the presence check and contains
`repos`, validation succeeds exactly when `repos` is a list of objects
with non-blank string `name` and `url` fields and `secrets` (if
present) is a mapping; any failure exits with code 3; the reported
violation is the one at the lowest bad index, `name` checked before
`url`, with a message naming that index and field; a present non-mapping
`secrets` forces failure; and the spec's example configuration fails
with the message for index 0, field `name`. -/
theorem claim_c4 :
    (∀ cfg : Config, presenceCheck cfg = .ok () →
      ∀ v, dictGet cfg "repos" = some v →
      ((validate_settings cfg = .ok ()) ↔
        (reposOkB v = true ∧ secretsPartOk cfg = true))
      ∧ (∀ e, validate_settings cfg = .error e → e.1 = 3)
      ∧ (∀ l, v = .arr l → ∀ i (hi : i < l.length),
          (∀ j (hj : j < l.length), j < i → repoElemOk (l.get ⟨j, hj⟩) = true) →
          repoElemOk (l.get ⟨i, hi⟩) = false →
          validate_settings cfg =
            .error (3, firstViolationMsg i (l.get ⟨i, hi⟩)))
      ∧ (∀ w, dictGet cfg "secrets" = some w → isDict w = false →
          ∃ m, validate_settings cfg = .error (3, m)))
    ∧ validate_settings
        [("project", .str "p"), ("instance", .str "i"),
         ("repos", .arr [.obj [("name", .str ""), ("url", .str "x")]]),
         ("secrets", .obj [])] =
      .error (3, "[ERROR] repos[0].name must be a non-empty string.") := by
  constructor
  · intro cfg hpres v hv
    have hall : (coalesce_required_keys cfg).all (dictHas cfg) = true :=
      (presenceCheck_ok_iff cfg).mp hpres
    have hrep : reposPartOk cfg = reposOkB v := by
      rw [reposPartOk, hv]
    refine ⟨?_, fun e he => validate_err_code cfg e he, ?_, ?_⟩
    · rw [validate_ok_iff]
      constructor
      · rintro ⟨_, h2, h3⟩
        exact ⟨hrep ▸ h2, h3⟩
      · rintro ⟨h2, h3⟩
        exact ⟨hall, hrep ▸ h2, h3⟩
    · intro l hl i hi hok hbad
      subst hl
      have hcr := checkRepos_first_bad l 0 i hi hok hbad
      rw [validate_of_presence_ok cfg hpres, shapeCheck, reposCheckPart, hv]
      simp [hcr]
    · intro w hw hnd
      have hsec : secretsPartOk cfg = false := by
        rw [secretsPartOk, hw]
        exact hnd
      have hfail : ∃ e, validate_settings cfg = .error e := by
        cases hvv : validate_settings cfg with
        | error e => exact ⟨e, rfl⟩
        | ok u =>
            cases u
            have := ((validate_ok_iff cfg).mp hvv).2.2
            rw [hsec] at this
            exact Bool.noConfusion this
      obtain ⟨⟨c, m⟩, he⟩ := hfail
      have hc : c = 3 := validate_err_code cfg (c, m) he
      subst hc
      exact ⟨m, he⟩
  · rfl

/-! Lemmas about `updateKey` and congruence of the summarizer. -/

lemma dictGet_updateKey_self : ∀ (cfg : Config) (key : String)
    (nv v0 : JValue), dictGet cfg key = some v0 →
    dictGet (updateKey cfg key nv) key = some nv
  | [], key, nv, v0 => by simp [dictGet]
  | (k, v) :: rest, key, nv, v0 => by
      intro h
      by_cases hk : k = key
      · simp [updateKey, dictGet, hk]
      · rw [dictGet, if_neg hk] at h
        simp only [updateKey, if_neg hk, dictGet]
        exact dictGet_updateKey_self rest key nv v0 h

lemma dictGet_updateKey_ne : ∀ (cfg : Config) (key : String) (nv : JValue)
    (k : String), k ≠ key →
    dictGet (updateKey cfg key nv) k = dictGet cfg k
  | [], key, nv, k => by simp [updateKey]
  | (k1, v) :: rest, key, nv, k => by
      intro hne
      by_cases hk : k1 = key
      · subst hk
        simp only [updateKey, if_pos rfl, dictGet]
        rw [if_neg (fun h => hne h.symm), if_neg (fun h => hne h.symm)]
      · simp only [updateKey, if_neg hk, dictGet]
        by_cases h1 : k1 = k
        · rw [if_pos h1, if_pos h1]
        · rw [if_neg h1, if_neg h1]
          exact dictGet_updateKey_ne rest key nv k hne

lemma map_fst_updateKey : ∀ (cfg : Config) (key : String) (nv : JValue),
    (updateKey cfg key nv).map Prod.fst = cfg.map Prod.fst
  | [], key, nv => rfl
  | (k, v) :: rest, key, nv => by
      by_cases hk : k = key
      · simp [updateKey, hk]
      · simp [updateKey, hk, map_fst_updateKey rest key nv]

lemma dictHas_updateKey_of_present (cfg : Config) (key : String)
    (nv v0 : JValue) (h : dictGet cfg key = some v0) :
    ∀ k, dictHas (updateKey cfg key nv) k = dictHas cfg k := by
  intro k
  by_cases hk : k = key
  · subst hk
    rw [dictHas, dictHas, dictGet_updateKey_self cfg k nv v0 h, h]
    rfl
  · rw [dictHas, dictHas, dictGet_updateKey_ne cfg key nv k hk]

lemma secretsSection_congr (cfg1 cfg2 : Config)
    (h : dictGet cfg1 "secrets" = dictGet cfg2 "secrets") :
    secretsSection cfg1 = secretsSection cfg2 := by
  rw [secretsSection, secretsSection, dictGetD, dictGetD, h]

/-- The secrets block depends only on the keys of the `secrets` mapping,
never on its values. -/
lemma secretsSection_keys (cfg1 cfg2 : Config)
    (s1 s2 : List (String × JValue))
    (h1 : dictGet cfg1 "secrets" = some (.obj s1))
    (h2 : dictGet cfg2 "secrets" = some (.obj s2))
    (hk : s1.map Prod.fst = s2.map Prod.fst) :
    secretsSection cfg1 = secretsSection cfg2 := by
  have hlen : s1.length = s2.length := by
    rw [← List.length_map s1 Prod.fst, hk, List.length_map]
  have hemp : s1.isEmpty = s2.isEmpty := by
    cases s1 <;> cases s2 <;> simp_all
  rw [secretsSection, secretsSection, dictGetD, dictGetD, h1, h2]
  simp only [Option.getD_some, hlen, hk, hemp]

lemma summarize_congr (cfg1 cfg2 : Config)
    (hp : dictGet cfg1 "project" = dictGet cfg2 "project")
    (hi : dictGet cfg1 "instance" = dictGet cfg2 "instance")
    (hr : dictGet cfg1 "repos" = dictGet cfg2 "repos")
    (hk : cfg1.map Prod.fst = cfg2.map Prod.fst)
    (hs : secretsSection cfg1 = secretsSection cfg2) :
    summarize_settings cfg1 = summarize_settings cfg2 := by
  rw [summarize_settings, summarize_settings, dictGetD, dictGetD, dictGetD,
    dictGetD, hp, hi, hs, reposSection, reposSection, dictGetD, dictGetD, hr,
    otherKeysSection, otherKeysSection, hk]

/-- C1: for a configuration whose `secrets` field is a mapping, stdout
contains the secrets count line and (when non-empty) the sorted
comma-joined key names, and the output is invariant under changing only
the values of the `secrets` mapping. -/
theorem claim_c1 : ∀ (cfg : Config) (s : List (String × JValue)),
    dictGet cfg "secrets" = some (.obj s) →
    (("Secrets:  " ++ toString s.length ++ " keys") ∈ summarize_settings cfg
      ∧ (s ≠ [] →
        ("  keys: " ++
            String.intercalate ", " (sortedStrings (s.map Prod.fst)))
          ∈ summarize_settings cfg))
    ∧ (∀ s2 : List (String × JValue), s.map Prod.fst = s2.map Prod.fst →
        summarize_settings (updateKey cfg "secrets" (.obj s2)) =
          summarize_settings cfg) := by
  intro cfg s h
  have hsec : secretsSection cfg =
      ("Secrets:  " ++ toString s.length ++ " keys") ::
        (if s.isEmpty then []
         else ["  keys: " ++
           String.intercalate ", " (sortedStrings (s.map Prod.fst))]) := by
    rw [secretsSection, dictGetD, h]
    rfl
  constructor
  · constructor
    · simp [summarize_settings, hsec]
    · intro hne
      have hne' : s.isEmpty = false := by
        cases s with
        | nil => exact absurd rfl hne
        | cons a l => rfl
      simp [summarize_settings, hsec, hne']
  · intro s2 hk2
    apply summarize_congr
    · exact dictGet_updateKey_ne cfg "secrets" (.obj s2) "project" (by decide)
    · exact dictGet_updateKey_ne cfg "secrets" (.obj s2) "instance" (by decide)
    · exact dictGet_updateKey_ne cfg "secrets" (.obj s2) "repos" (by decide)
    · exact map_fst_updateKey cfg "secrets" (.obj s2)
    · exact secretsSection_keys _ _ s2 s
        (dictGet_updateKey_self cfg "secrets" (.obj s2) (.obj s) h) h hk2.symm

/-- Witness for C1 at the spec's example: the summary of a
configuration with secrets `API_KEY`/`DB_PASS` names both keys, and
replacing the values `topsecret`/`hunter2` by other values leaves the
entire output unchanged. -/
theorem claim_c1_witness :
    ("Secrets:  2 keys") ∈ summarize_settings
      [("secrets", .obj [("API_KEY", .str "topsecret"),
        ("DB_PASS", .str "hunter2")])]
    ∧ summarize_settings
        [("secrets", .obj [("API_KEY", .str "redactedA"),
          ("DB_PASS", .str "redactedB")])] =
      summarize_settings
        [("secrets", .obj [("API_KEY", .str "topsecret"),
          ("DB_PASS", .str "hunter2")])] := by
  have h := claim_c1
    [("secrets", .obj [("API_KEY", .str "topsecret"),
      ("DB_PASS", .str "hunter2")])]
    [("API_KEY", .str "topsecret"), ("DB_PASS", .str "hunter2")] rfl
  exact ⟨h.1.1, h.2 [("API_KEY", .str "redactedA"),
    ("DB_PASS", .str "redactedB")] rfl⟩

/-! Congruence of validation in the non-`required_keys` part of the
configuration, used for the de-duplication invariance claim. -/

lemma reposCheckPart_congr (cfg1 cfg2 : Config)
    (h : dictGet cfg1 "repos" = dictGet cfg2 "repos") :
    reposCheckPart cfg1 = reposCheckPart cfg2 := by
  rw [reposCheckPart, reposCheckPart, h]

lemma secretsCheckPart_congr (cfg1 cfg2 : Config)
    (h : dictGet cfg1 "secrets" = dictGet cfg2 "secrets") :
    secretsCheckPart cfg1 = secretsCheckPart cfg2 := by
  rw [secretsCheckPart, secretsCheckPart, h]

lemma presenceCheck_eq (cfg : Config) :
    presenceCheck cfg =
      if ((coalesce_required_keys cfg).filter
            (fun k => !dictHas cfg k)).isEmpty then .ok ()
      else .error (3, missingKeysMsg
        ((coalesce_required_keys cfg).filter (fun k => !dictHas cfg k))) :=
  rfl

lemma map_strOrEmpty_map_str : ∀ l : List String,
    (l.map JValue.str).map strOrEmpty = l
  | [] => rfl
  | s :: rest => by
      simp only [List.map_cons, map_strOrEmpty_map_str rest]
      rfl

lemma all_isStr_map_str (l : List String) :
    (l.map JValue.str).all isStr = true := by
  rw [List.all_eq_true]
  intro x hx
  obtain ⟨s, _, rfl⟩ := List.mem_map.mp hx
  rfl

/-- C8: replacing a string-list `required_keys` value by its
first-occurrence de-duplication changes nothing: the coalesced key
sequence, the validation outcome and the summary output all coincide. -/
theorem claim_c8 : ∀ (cfg : Config) (l : List String),
    dictGet cfg "required_keys" = some (.arr (l.map JValue.str)) →
    (coalesce_required_keys (updateKey cfg "required_keys"
        (.arr ((dedupFirst l).map JValue.str))) = coalesce_required_keys cfg)
    ∧ (validate_settings (updateKey cfg "required_keys"
        (.arr ((dedupFirst l).map JValue.str))) = validate_settings cfg)
    ∧ (summarize_settings (updateKey cfg "required_keys"
        (.arr ((dedupFirst l).map JValue.str))) = summarize_settings cfg) := by
  intro cfg l h
  set nv : JValue := .arr ((dedupFirst l).map JValue.str) with hnv
  set cfg2 : Config := updateKey cfg "required_keys" nv with hcfg2
  have h2 : dictGet cfg2 "required_keys" = some nv :=
    dictGet_updateKey_self cfg "required_keys" nv _ h
  have hco1 : coalesce_required_keys cfg = dedupFirst l := by
    rw [coalesce_eq_dedupFirst cfg (l.map JValue.str) h (all_isStr_map_str l),
      map_strOrEmpty_map_str]
  have hco2 : coalesce_required_keys cfg2 = dedupFirst l := by
    rw [coalesce_eq_dedupFirst cfg2 ((dedupFirst l).map JValue.str) h2
        (all_isStr_map_str _),
      map_strOrEmpty_map_str, dedupFirst_idem]
  have hco : coalesce_required_keys cfg2 = coalesce_required_keys cfg := by
    rw [hco1, hco2]
  have hhas : ∀ k, dictHas cfg2 k = dictHas cfg k :=
    dictHas_updateKey_of_present cfg "required_keys" nv _ h
  have hmiss : (coalesce_required_keys cfg2).filter (fun k => !dictHas cfg2 k)
      = (coalesce_required_keys cfg).filter (fun k => !dictHas cfg k) := by
    rw [hco]
    exact List.filter_congr (fun k _ => by rw [hhas k])
  have hpres : presenceCheck cfg2 = presenceCheck cfg := by
    rw [presenceCheck_eq, presenceCheck_eq, hmiss]
  have hrep : reposCheckPart cfg2 = reposCheckPart cfg :=
    reposCheckPart_congr cfg2 cfg
      (dictGet_updateKey_ne cfg "required_keys" nv "repos" (by decide))
  have hsec : secretsCheckPart cfg2 = secretsCheckPart cfg :=
    secretsCheckPart_congr cfg2 cfg
      (dictGet_updateKey_ne cfg "required_keys" nv "secrets" (by decide))
  refine ⟨hco, ?_, ?_⟩
  · rw [validate_settings, validate_settings, hpres, shapeCheck, shapeCheck,
      hrep, hsec]
  · apply summarize_congr
    · exact dictGet_updateKey_ne cfg "required_keys" nv "project" (by decide)
    · exact dictGet_updateKey_ne cfg "required_keys" nv "instance" (by decide)
    · exact dictGet_updateKey_ne cfg "required_keys" nv "repos" (by decide)
    · exact map_fst_updateKey cfg "required_keys" nv
    · exact secretsSection_congr _ _
        (dictGet_updateKey_ne cfg "required_keys" nv "secrets" (by decide))

/-- Witness for C8 at the spec's example: `required_keys`
`["a","a","b"]` and `["a","b"]` give the same validation outcome and
the same summary. -/
theorem claim_c8_witness :
    validate_settings [("required_keys", .arr [.str "a", .str "b"]),
        ("a", .num 1), ("b", .num 2)] =
      validate_settings [("required_keys", .arr [.str "a", .str "a", .str "b"]),
        ("a", .num 1), ("b", .num 2)]
    ∧ summarize_settings [("required_keys", .arr [.str "a", .str "b"]),
        ("a", .num 1), ("b", .num 2)] =
      summarize_settings [("required_keys", .arr [.str "a", .str "a", .str "b"]),
        ("a", .num 1), ("b", .num 2)] := by
  have hd : dedupFirst ["a", "a", "b"] = ["a", "b"] := by
    rw [dedupFirst_cons]
    have h1 : (["a", "b"] : List String).filter (fun x => x ≠ "a") = ["b"] := by
      decide
    rw [h1, dedupFirst_cons]
    have h2 : (([] : List String)).filter (fun x => x ≠ "b") = [] := rfl
    rw [h2, dedupFirst_nil]
  have h := claim_c8
    [("required_keys", .arr [.str "a", .str "a", .str "b"]),
     ("a", .num 1), ("b", .num 2)] ["a", "a", "b"] rfl
  rw [hd] at h
  exact ⟨h.2.1, h.2.2⟩

/-- Witness for C4 at concrete inputs: with an empty `required_keys`
override (so the presence check passes), a `repos` list whose first
element is not an object is reported at index 0, even though the second
element is also invalid. -/
theorem claim_c4_witness :
    validate_settings
      [("required_keys", .arr []),
       ("repos", .arr [.num 7, .obj [("name", .str " "), ("url", .str "u")]])]
      = .error (3, "[ERROR] repos[0] must be an object.") := by
  have h := (claim_c4.1
    [("required_keys", .arr []),
     ("repos", .arr [.num 7, .obj [("name", .str " "), ("url", .str "u")]])]
    (by rfl)
    (.arr [.num 7, .obj [("name", .str " "), ("url", .str "u")]]) rfl).2.2.1
    [.num 7, .obj [("name", .str " "), ("url", .str "u")]] rfl 0 (by decide)
    (fun j hj hlt => absurd hlt (Nat.not_lt_zero j)) (by rfl)
  exact h

/-! Lemmas about the loader. -/

lemma singleLine_append (a b : String) :
    singleLine (a ++ b) = (singleLine a && singleLine b) := by
  rw [singleLine, singleLine, singleLine, String.data_append, List.all_append]

lemma singleLine_mem (s : String) (hs : singleLine s = true) (x : Char)
    (hx : x ∈ s.data) : x ≠ '\n' := by
  have := List.all_eq_true.mp hs x hx
  simpa using this

/-- C5: every loader failure — file absent, invalid JSON, read error,
or a non-object root — exits with code 2 and a single-line stderr
diagnostic (given that the path and the underlying parser / OS details
are single-line), and a configuration is returned exactly when parsing
produced an object root. -/
theorem claim_c5 : ∀ (path : String) (o : LoadOutcome),
    ((∃ cfg, load_settings path o = .ok cfg) ↔
      ∃ fields, o = .parsed (.obj fields))
    ∧ (∀ e, load_settings path o = .error e → e.1 = 2)
    ∧ (singleLine path = true → outcomeDetailSingleLine o = true →
        ∀ e, load_settings path o = .error e → singleLine e.2 = true) := by
  intro path o
  cases o with
  | notFound =>
      refine ⟨⟨fun ⟨cfg, h⟩ => Except.noConfusion h, fun ⟨f, h⟩ =>
        LoadOutcome.noConfusion h⟩, fun e he => ?_, fun hp _ e he => ?_⟩
      · cases he
        rfl
      · cases he
        rw [singleLine_append]
        rw [hp]
        simp [singleLine]
  | readError d =>
      refine ⟨⟨fun ⟨cfg, h⟩ => Except.noConfusion h, fun ⟨f, h⟩ =>
        LoadOutcome.noConfusion h⟩, fun e he => ?_, fun hp hd e he => ?_⟩
      · cases he
        rfl
      · cases he
        rw [outcomeDetailSingleLine] at hd
        rw [singleLine, List.all_eq_true]
        intro x hx
        simp only [String.data_append, List.mem_append] at hx
        simp only [decide_eq_true_eq]
        rcases hx with ((hx | hx) | hx) | hx
        · exact singleLine_mem _ (by decide) x hx
        · exact singleLine_mem path hp x hx
        · exact singleLine_mem _ (by decide) x hx
        · exact singleLine_mem d hd x hx
  | parseError d =>
      refine ⟨⟨fun ⟨cfg, h⟩ => Except.noConfusion h, fun ⟨f, h⟩ =>
        LoadOutcome.noConfusion h⟩, fun e he => ?_, fun hp hd e he => ?_⟩
      · cases he
        rfl
      · cases he
        rw [outcomeDetailSingleLine] at hd
        rw [singleLine, List.all_eq_true]
        intro x hx
        simp only [String.data_append, List.mem_append] at hx
        simp only [decide_eq_true_eq]
        rcases hx with ((hx | hx) | hx) | hx
        · exact singleLine_mem _ (by decide) x hx
        · exact singleLine_mem path hp x hx
        · exact singleLine_mem _ (by decide) x hx
        · exact singleLine_mem d hd x hx
  | parsed v =>
      cases v with
      | obj fields =>
          refine ⟨⟨fun _ => ⟨fields, rfl⟩, fun _ => ⟨fields, rfl⟩⟩,
            fun e he => Except.noConfusion he, fun _ _ e he =>
            Except.noConfusion he⟩
      | null =>
          refine ⟨⟨fun ⟨cfg, h⟩ => Except.noConfusion h, fun ⟨f, h⟩ => ?_⟩,
            fun e he => ?_, fun hp _ e he => ?_⟩
          · cases h
          · cases he
            rfl
          · cases he
            rw [singleLine_append, singleLine_append, hp]
            simp [singleLine]
      | bool b =>
          refine ⟨⟨fun ⟨cfg, h⟩ => Except.noConfusion h, fun ⟨f, h⟩ => ?_⟩,
            fun e he => ?_, fun hp _ e he => ?_⟩
          · cases h
          · cases he
            rfl
          · cases he
            rw [singleLine_append, singleLine_append, hp]
            simp [singleLine]
      | num n =>
          refine ⟨⟨fun ⟨cfg, h⟩ => Except.noConfusion h, fun ⟨f, h⟩ => ?_⟩,
            fun e he => ?_, fun hp _ e he => ?_⟩
          · cases h
          · cases he
            rfl
          · cases he
            rw [singleLine_append, singleLine_append, hp]
            simp [singleLine]
      | str s =>
          refine ⟨⟨fun ⟨cfg, h⟩ => Except.noConfusion h, fun ⟨f, h⟩ => ?_⟩,
            fun e he => ?_, fun hp _ e he => ?_⟩
          · cases h
          · cases he
            rfl
          · cases he
            rw [singleLine_append, singleLine_append, hp]
            simp [singleLine]
      | arr items =>
          refine ⟨⟨fun ⟨cfg, h⟩ => Except.noConfusion h, fun ⟨f, h⟩ => ?_⟩,
            fun e he => ?_, fun hp _ e he => ?_⟩
          · cases h
          · cases he
            rfl
          · cases he
            rw [singleLine_append, singleLine_append, hp]
            simp [singleLine]

/-- Witness for C5 at concrete inputs: a missing `settings.json` exits
with code 2 and a single-line message, and a parsed object root is
returned as the configuration. -/
theorem claim_c5_witness :
    (∀ e, load_settings "settings.json" .notFound = .error e → e.1 = 2)
    ∧ (∀ e, load_settings "settings.json" .notFound = .error e →
        singleLine e.2 = true)
    ∧ (∃ cfg, load_settings "settings.json"
        (.parsed (.obj [("project", .str "p")])) = .ok cfg) := by
  refine ⟨(claim_c5 "settings.json" .notFound).2.1, ?_, ?_⟩
  · exact (claim_c5 "settings.json" .notFound).2.2 (by decide) (by decide)
  · exact (claim_c5 "settings.json"
      (.parsed (.obj [("project", .str "p")]))).1.mpr
      ⟨[("project", .str "p")], rfl⟩

/-! Lemmas about the summarizer's output shape. -/

lemma repoLines_eq : ∀ l : List JValue, repoLines l = l.filterMap specRepoLine
  | [] => rfl
  | r :: rest => by
      cases r <;>
        simp [repoLines, specRepoLine, List.filterMap_cons, repoLines_eq rest]

lemma secretsCountLine_head (m : String) :
    ("Secrets:  " ++ m ++ " keys").data.head? = some 'S' := by
  rw [String.data_append, String.data_append, List.head?_append,
    List.head?_append]
  rfl

lemma secretsCountLine_last (m : String) :
    ("Secrets:  " ++ m ++ " keys").data.getLast? = some 's' := by
  rw [String.data_append, List.getLast?_append]
  rfl

/-- A string is not a secrets count line when its first character is
not `S` or its last character is not `s`. -/
lemma count_line_ne (m L : String)
    (h : L.data.head? ≠ some 'S' ∨ L.data.getLast? ≠ some 's') :
    "Secrets:  " ++ m ++ " keys" ≠ L := by
  intro he
  cases h with
  | inl h1 => exact h1 (by rw [← he, secretsCountLine_head])
  | inr h2 => exact h2 (by rw [← he, secretsCountLine_last])

/-- C6 counterexample: for the configuration
`{"repos": [7], "secrets": "x"}` the summary prints
`Secrets:  <invalid type>` rather than any `Secrets:` count line, and
prints no repo line at all although the repos count is 1 — so the
claimed output shape (an unconditional secrets count, and one line per
repo element) fails. -/
theorem claim_c6_counterexample :
    summarize_settings [("repos", .arr [.num 7]), ("secrets", .str "x")] =
      ["=== ETL Deploy :: Settings Summary ===",
       "Project:  <unknown>",
       "Instance: <unknown>",
       "Repos:    1",
       "Secrets:  <invalid type>",
       "=== End Summary ==="]
    ∧ (∀ n : Nat, ("Secrets:  " ++ toString n ++ " keys") ∉
        summarize_settings [("repos", .arr [.num 7]), ("secrets", .str "x")])
    ∧ (∀ line ∈ summarize_settings
        [("repos", .arr [.num 7]), ("secrets", .str "x")],
        line.data.take 4 ≠ "  - ".data) := by
  have hconc : summarize_settings
      [("repos", .arr [.num 7]), ("secrets", .str "x")] =
      ["=== ETL Deploy :: Settings Summary ===",
       "Project:  <unknown>",
       "Instance: <unknown>",
       "Repos:    1",
       "Secrets:  <invalid type>",
       "=== End Summary ==="] := rfl
  refine ⟨hconc, ?_, ?_⟩
  · intro n h
    rw [hconc] at h
    simp only [List.mem_cons, List.not_mem_nil, or_false] at h
    rcases h with h | h | h | h | h | h
    · exact count_line_ne _ _ (Or.inl (by decide)) h
    · exact count_line_ne _ _ (Or.inl (by decide)) h
    · exact count_line_ne _ _ (Or.inl (by decide)) h
    · exact count_line_ne _ _ (Or.inl (by decide)) h
    · exact count_line_ne _ _ (Or.inr (by decide)) h
    · exact count_line_ne _ _ (Or.inl (by decide)) h
  · intro line h
    rw [hconc] at h
    simp only [List.mem_cons, List.not_mem_nil, or_false] at h
    rcases h with h | h | h | h | h | h <;> (subst h; decide)

/-- C6 (amended): the summary consists, in order, of the banner, the
`Project:`/`Instance:` lines with `<unknown>` placeholders, the
`Repos:` count followed by one line per repo element that is an object
(or `<invalid type>` for a non-list `repos`), the `Secrets:` count with
the sorted comma-joined key names when non-empty (or `<invalid type>`
for a non-mapping `secrets`), the optional `Other keys:` line, and the
closing banner. -/
theorem claim_c6 : ∀ cfg : Config,
    summarize_settings cfg = summarySpec cfg := by
  intro cfg
  have hget : ∀ key : String,
      pyStr (dictGetD cfg key (.str "<unknown>")) =
        (match dictGet cfg key with
          | none => "<unknown>"
          | some v => pyStr v) := by
    intro key
    cases h : dictGet cfg key with
    | none => rw [dictGetD, h]; rfl
    | some v => rw [dictGetD, h]; rfl
  have hrepos : reposSection cfg =
      (match dictGet cfg "repos" with
        | none => ["Repos:    0"]
        | some (.arr l) =>
            ("Repos:    " ++ toString l.length) :: l.filterMap specRepoLine
        | some _ => ["Repos:    <invalid type>"]) := by
    cases h : dictGet cfg "repos" with
    | none => rw [reposSection, dictGetD, h]; rfl
    | some v =>
        cases v with
        | arr l =>
            rw [reposSection, dictGetD, h]
            simp only [Option.getD_some]
            rw [repoLines_eq]
        | null => rw [reposSection, dictGetD, h]; rfl
        | bool b => rw [reposSection, dictGetD, h]; rfl
        | num n => rw [reposSection, dictGetD, h]; rfl
        | str s => rw [reposSection, dictGetD, h]; rfl
        | obj f => rw [reposSection, dictGetD, h]; rfl
  have hsecrets : secretsSection cfg =
      (match dictGet cfg "secrets" with
        | none => ["Secrets:  0 keys"]
        | some (.obj s) =>
            ("Secrets:  " ++ toString s.length ++ " keys") ::
              (if s.length = 0 then []
               else ["  keys: " ++
                 String.intercalate ", " (sortedStrings (s.map Prod.fst))])
        | some _ => ["Secrets:  <invalid type>"]) := by
    cases h : dictGet cfg "secrets" with
    | none => rw [secretsSection, dictGetD, h]; rfl
    | some v =>
        cases v with
        | obj s =>
            rw [secretsSection, dictGetD, h]
            cases s with
            | nil => rfl
            | cons a l => rfl
        | null => rw [secretsSection, dictGetD, h]; rfl
        | bool b => rw [secretsSection, dictGetD, h]; rfl
        | num n => rw [secretsSection, dictGetD, h]; rfl
        | str s => rw [secretsSection, dictGetD, h]; rfl
        | arr l => rw [secretsSection, dictGetD, h]; rfl
  have hother : otherKeysSection cfg =
      (let extra := sortedStrings ((cfg.map Prod.fst).filter (fun k =>
          !(k == "project" || k == "instance" || k == "repos" ||
            k == "secrets" || k == "required_keys")))
       if extra = [] then []
       else ["Other keys: " ++ String.intercalate ", " extra]) := by
    have hfilt : (cfg.map Prod.fst).filter
          (fun k => !conventionalKeys.contains k) =
        (cfg.map Prod.fst).filter (fun k =>
          !(k == "project" || k == "instance" || k == "repos" ||
            k == "secrets" || k == "required_keys")) := by
      apply List.filter_congr
      intro x _
      rw [Bool.eq_iff_iff]
      simp [conventionalKeys]
      tauto
    rw [otherKeysSection, hfilt]
    cases he : sortedStrings ((cfg.map Prod.fst).filter (fun k =>
        !(k == "project" || k == "instance" || k == "repos" ||
          k == "secrets" || k == "required_keys"))) with
    | nil => rfl
    | cons a l => rfl
  rw [summarize_settings, summarySpec, hget "project", hget "instance",
    hrepos, hsecrets, hother]

/-! Lemmas about totality of the summarizer. -/

lemma map_pyStr_fst (s : List (String × JValue)) :
    s.map (fun kv => pyStr (.str kv.1)) = s.map Prod.fst := by
  induction s with
  | nil => rfl
  | cons a l ih => simp only [List.map_cons, ih]; rfl

/-- The checked secrets block never fails and produces exactly the
summarizer's secrets block. -/
lemma secretsSectionChecked_ok (cfg : Config) :
    secretsSectionChecked cfg = .ok (secretsSection cfg) := by
  rw [secretsSectionChecked, secretsSection]
  cases h : dictGetD cfg "secrets" (.obj []) with
  | obj secrets =>
      cases hemp : secrets.isEmpty with
      | true => simp [hemp]
      | false =>
          simp only [hemp]
          rw [map_pyStr_fst, pyJoinChecked, if_pos (all_isStr_map_str _),
            map_strOrEmpty_map_str]
          rfl
  | null => rfl
  | bool b => rfl
  | num n => rfl
  | str s => rfl
  | arr l => rfl

lemma reposSection_invalid (cfg : Config) (v : JValue)
    (hv : dictGet cfg "repos" = some v) (hnl : isList v = false) :
    reposSection cfg = ["Repos:    <invalid type>"] := by
  rw [reposSection, dictGetD, hv]
  cases v <;> simp_all [isList]

lemma secretsSection_invalid (cfg : Config) (v : JValue)
    (hv : dictGet cfg "secrets" = some v) (hnd : isDict v = false) :
    secretsSection cfg = ["Secrets:  <invalid type>"] := by
  rw [secretsSection, dictGetD, hv]
  cases v <;> simp_all [isDict]

/-- C7: the summarizer never raises on any configuration — its one
fallible operation always succeeds and yields the summary — and it
substitutes defaults for absent fields and `<invalid type>` markers for
ill-typed `repos` / `secrets`. -/
theorem claim_c7 : ∀ cfg : Config,
    summarizeChecked cfg = .ok (summarize_settings cfg)
    ∧ (dictGet cfg "project" = none →
        "Project:  <unknown>" ∈ summarize_settings cfg)
    ∧ (dictGet cfg "instance" = none →
        "Instance: <unknown>" ∈ summarize_settings cfg)
    ∧ (dictGet cfg "repos" = none →
        "Repos:    0" ∈ summarize_settings cfg)
    ∧ (dictGet cfg "secrets" = none →
        "Secrets:  0 keys" ∈ summarize_settings cfg)
    ∧ (∀ v, dictGet cfg "repos" = some v → isList v = false →
        "Repos:    <invalid type>" ∈ summarize_settings cfg)
    ∧ (∀ v, dictGet cfg "secrets" = some v → isDict v = false →
        "Secrets:  <invalid type>" ∈ summarize_settings cfg) := by
  intro cfg
  refine ⟨?_, ?_, ?_, ?_, ?_, ?_, ?_⟩
  · rw [summarizeChecked, secretsSectionChecked_ok, summarize_settings]
  · intro h
    have hline : ("Project:  " ++
        pyStr (dictGetD cfg "project" (.str "<unknown>"))) =
        "Project:  <unknown>" := by
      rw [dictGetD, h]
      rfl
    rw [summarize_settings, hline]
    apply List.mem_append_left
    apply List.mem_append_left
    apply List.mem_append_left
    apply List.mem_append_left
    exact List.mem_cons_of_mem _ (List.mem_cons_self _ _)
  · intro h
    have hline : ("Instance: " ++
        pyStr (dictGetD cfg "instance" (.str "<unknown>"))) =
        "Instance: <unknown>" := by
      rw [dictGetD, h]
      rfl
    rw [summarize_settings, hline]
    apply List.mem_append_left
    apply List.mem_append_left
    apply List.mem_append_left
    apply List.mem_append_left
    exact List.mem_cons_of_mem _ (List.mem_cons_of_mem _
      (List.mem_cons_self _ _))
  · intro h
    have hsec : reposSection cfg = ["Repos:    0"] := by
      rw [reposSection, dictGetD, h]
      rfl
    rw [summarize_settings, hsec]
    apply List.mem_append_left
    apply List.mem_append_left
    apply List.mem_append_left
    apply List.mem_append_right
    exact List.mem_cons_self _ _
  · intro h
    have hsec : secretsSection cfg = ["Secrets:  0 keys"] := by
      rw [secretsSection, dictGetD, h]
      rfl
    rw [summarize_settings, hsec]
    apply List.mem_append_left
    apply List.mem_append_left
    apply List.mem_append_right
    exact List.mem_cons_self _ _
  · intro v hv hnl
    rw [summarize_settings, reposSection_invalid cfg v hv hnl]
    apply List.mem_append_left
    apply List.mem_append_left
    apply List.mem_append_left
    apply List.mem_append_right
    exact List.mem_cons_self _ _
  · intro v hv hnd
    rw [summarize_settings, secretsSection_invalid cfg v hv hnd]
    apply List.mem_append_left
    apply List.mem_append_left
    apply List.mem_append_right
    exact List.mem_cons_self _ _

/-- Witness for C7 at a concrete input: an ill-typed configuration that
never passed validation still summarizes without error, with every
default and marker applied. -/
theorem claim_c7_witness :
    summarizeChecked [("repos", .num 0), ("secrets", .str "v")] =
      .ok (summarize_settings [("repos", .num 0), ("secrets", .str "v")])
    ∧ "Project:  <unknown>" ∈
        summarize_settings [("repos", .num 0), ("secrets", .str "v")]
    ∧ "Repos:    <invalid type>" ∈
        summarize_settings [("repos", .num 0), ("secrets", .str "v")]
    ∧ "Secrets:  <invalid type>" ∈
        summarize_settings [("repos", .num 0), ("secrets", .str "v")] := by
  have h := claim_c7 [("repos", .num 0), ("secrets", .str "v")]
  exact ⟨h.1, h.2.1 rfl, h.2.2.2.2.2.1 (.num 0) rfl rfl,
    h.2.2.2.2.2.2 (.str "v") rfl rfl⟩

/-- C9: none of the three operations mutates the configuration: run as
state computations, each returns exactly the corresponding pure result
and leaves the state equal to the loaded configuration. -/
theorem claim_c9 : ∀ cfg : Config,
    coalesce_required_keys_st.run cfg = (coalesce_required_keys cfg, cfg)
    ∧ validate_settings_st.run cfg = (validate_settings cfg, cfg)
    ∧ summarize_settings_st.run cfg = (summarize_settings cfg, cfg) := by
  intro cfg
  refine ⟨rfl, ?_, rfl⟩
  show validate_settings_st.run cfg = (validate_settings cfg, cfg)
  rw [validate_settings, presenceCheck_eq]
  by_cases hE : ((coalesce_required_keys cfg).filter
      (fun k => !dictHas cfg k)).isEmpty = true
  · cases hr : reposCheckPart cfg with
    | error e =>
        simp [validate_settings_st, coalesce_required_keys_st,
          StateT.run, bind, StateT.bind, get, getThe, MonadStateOf.get,
          StateT.get, pure, StateT.pure, hE, hr, shapeCheck]
    | ok u =>
        cases u
        simp [validate_settings_st, coalesce_required_keys_st,
          StateT.run, bind, StateT.bind, get, getThe, MonadStateOf.get,
          StateT.get, pure, StateT.pure, hE, hr, shapeCheck]
  · simp [validate_settings_st, coalesce_required_keys_st,
      StateT.run, bind, StateT.bind, get, getThe, MonadStateOf.get,
      StateT.get, pure, StateT.pure, hE]

end EtlDeploy
